import Mathlib

/-!
Shallow embedding of the booking-service core (Go, `ita-av/booking-service`).

Conventions of the embedding:
* `time.Time` instants are integers counting minutes; `time.Duration`
  arithmetic in the source only ever adds whole minutes, so this is a
  faithful linear rescaling.  A calendar day is represented by its
  midnight instant (the source truncates an input time with `time.Date`;
  here the midnight instant is passed directly).
* Mongo `ObjectID`s are `Nat`; the store is a `List Booking` inside a
  `RepoState`, together with flags that model the store being unreachable
  for the read, range-query and write operations (`errors` returned by the
  Mongo driver).
* `time.Now()` is passed in explicitly as a `now : Int` parameter.
-/

/-- Go `type ServiceType int` (`internal/model/booking.go`). -/
abbrev ServiceType := Int

/-- Go `type BookingStatus int` (`internal/model/booking.go`). -/
abbrev BookingStatus := Int

def ServiceTypeHaircut : ServiceType := 0

def ServiceTypeBeardTrim : ServiceType := 1

def ServiceTypeHairWash : ServiceType := 2

def ServiceTypeFullService : ServiceType := 3

def BookingStatusPending : BookingStatus := 0

def BookingStatusConfirmed : BookingStatus := 1

def BookingStatusCancelled : BookingStatus := 2

def BookingStatusCompleted : BookingStatus := 3

/-- `model.Booking` (`internal/model/booking.go`). -/
structure Booking where
  id : Nat
  userID : String
  barberID : String
  startTime : Int
  endTime : Int
  serviceType : ServiceType
  status : BookingStatus
  notes : String
  createdAt : Int
  updatedAt : Int
deriving Repr, DecidableEq

/-- `model.TimeSlot` (`internal/model/booking.go`). -/
structure TimeSlot where
  startTime : Int
  endTime : Int
deriving Repr, DecidableEq

/-- `ServiceType.GetDuration` (`internal/model/booking.go`): switch over the
four known kinds with a default of 30 minutes. -/
def getDuration (s : ServiceType) : Int :=
  if s = ServiceTypeHaircut then 30
  else if s = ServiceTypeBeardTrim then 15
  else if s = ServiceTypeHairWash then 20
  else if s = ServiceTypeFullService then 60
  else 30

/-- `model.CalculateEndTime` (`internal/model/booking.go`). -/
def calculateEndTime (startTime : Int) (serviceType : ServiceType) : Int :=
  startTime + getDuration serviceType

/-- The Mongo filter of `MongoBookingRepository.GetBookingsInTimeRange`
(`repository` file): same barber, status not cancelled, and the three-way
`$or` — start in `[qs, qe)`, or end in `(qs, qe]`, or the booking spans the
query interval. -/
def inTimeRangeFilter (barberID : String) (qs qe : Int) (b : Booking) : Bool :=
  b.barberID == barberID &&
  !(b.status == BookingStatusCancelled) &&
  ((decide (qs ≤ b.startTime) && decide (b.startTime < qe)) ||
   (decide (qs < b.endTime) && decide (b.endTime ≤ qe)) ||
   (decide (b.startTime ≤ qs) && decide (b.endTime ≥ qe)))

/-- The filter of `MongoBookingRepository.GetBarberBookings`: same barber and,
when a date is given, `startTime` within the day's `[midnight, +24h)` window. -/
def barberDayFilter (barberID : String) (date : Option Int) (b : Booking) : Bool :=
  b.barberID == barberID &&
  (match date with
   | none => true
   | some d0 => decide (d0 ≤ b.startTime) && decide (b.startTime < d0 + 24 * 60))

/-- The three-way OR of the slot-availability loop in
`BookingService.GetAvailableTimeSlots` (`internal/service/booking_service.go`
lines 244-246). -/
def slotConflictsWith (slotStart slotEnd : Int) (b : Booking) : Bool :=
  (decide (b.startTime ≤ slotStart) && decide (slotStart < b.endTime)) ||
  (decide (b.startTime < slotEnd) && decide (slotEnd ≤ b.endTime)) ||
  (decide (slotStart < b.startTime) && decide (b.endTime < slotEnd))

/-- The inner loop of `GetAvailableTimeSlots`: a slot is available when every
booking is either cancelled (skipped by `continue`) or does not conflict. -/
def slotIsAvailable (bookings : List Booking) (slotStart slotEnd : Int) : Bool :=
  bookings.all fun b =>
    b.status == BookingStatusCancelled || !(slotConflictsWith slotStart slotEnd b)

/-- The spec's overlap predicate (§4.1): two half-open intervals `[s1,e1)` and
`[s2,e2)` conflict iff `s1 < e2 AND s2 < e1`.  Stated from the spec's words,
to be compared with the source-side filters. -/
def specOverlap (s1 e1 s2 e2 : Int) : Bool :=
  decide (s1 < e2) && decide (s2 < e1)

/-- The document store as seen by `MongoBookingRepository`: the collection of
bookings, a counter for fresh ids, and three fault flags that model the Mongo
driver returning an error on, respectively, the single-document read, the
range/list queries, and the writes. -/
structure RepoState where
  db : List Booking
  nextID : Nat := 1
  getFails : Bool := false
  queryFails : Bool := false
  persistFails : Bool := false
deriving Repr, DecidableEq

/-- The untyped `map[string]interface{}` of partial updates, typed: each key
of the map the service may set becomes an optional field (`none` = key
absent). -/
structure UpdateFields where
  startTime : Option Int := none
  endTime : Option Int := none
  serviceType : Option ServiceType := none
  notes : Option String := none
deriving Repr, DecidableEq

/-- `$set` application of an update map to a stored document, plus the
`updatedAt` refresh that `MongoBookingRepository.UpdateBooking` always adds. -/
def applyUpdates (b : Booking) (u : UpdateFields) (now : Int) : Booking :=
  { b with
    startTime := u.startTime.getD b.startTime
    endTime := u.endTime.getD b.endTime
    serviceType := u.serviceType.getD b.serviceType
    notes := u.notes.getD b.notes
    updatedAt := now }

/-- Replace the first document with the given id (Mongo single-document
update). -/
def replaceFirst (db : List Booking) (id : Nat) (b2 : Booking) : List Booking :=
  match db with
  | [] => []
  | b :: rest => if b.id == id then b2 :: rest else b :: replaceFirst rest id b2

/-- `MongoBookingRepository.GetBookingByID`: driver error, or the first
document with the id (`none` for `ErrNoDocuments`). -/
def getBookingByID (r : RepoState) (id : Nat) : Except Unit (Option Booking) :=
  if r.getFails then .error () else .ok (r.db.find? fun b => b.id == id)

/-- `MongoBookingRepository.GetBookingsInTimeRange`: driver error, or all
documents passing the three-clause overlap filter. -/
def getBookingsInTimeRange (r : RepoState) (barberID : String) (qs qe : Int) :
    Except Unit (List Booking) :=
  if r.queryFails then .error ()
  else .ok (r.db.filter (inTimeRangeFilter barberID qs qe))

/-- `MongoBookingRepository.GetBarberBookings`: driver error, or all documents
for the barber, restricted to a day when one is given. -/
def getBarberBookings (r : RepoState) (barberID : String) (date : Option Int) :
    Except Unit (List Booking) :=
  if r.queryFails then .error ()
  else .ok (r.db.filter (barberDayFilter barberID date))

/-- `MongoBookingRepository.CreateBooking`: set both timestamps to now, assign
a fresh id to the zero-id document the service built, and insert. -/
def repoCreateBooking (r : RepoState) (b : Booking) (now : Int) :
    Except Unit (Booking × RepoState) :=
  if r.persistFails then .error ()
  else
    let b2 := { b with id := r.nextID, createdAt := now, updatedAt := now }
    .ok (b2, { r with db := r.db ++ [b2], nextID := r.nextID + 1 })

/-- `MongoBookingRepository.UpdateBooking`: `FindOneAndUpdate` with
`$set` of the update map plus `updatedAt := now`; `none` when no document has
the id. -/
def repoUpdateBooking (r : RepoState) (id : Nat) (u : UpdateFields) (now : Int) :
    Except Unit (Option Booking × RepoState) :=
  if r.persistFails then .error ()
  else
    match r.db.find? (fun b => b.id == id) with
    | none => .ok (none, r)
    | some b =>
      let b2 := applyUpdates b u now
      .ok (some b2, { r with db := replaceFirst r.db id b2 })

/-- `MongoBookingRepository.CancelBooking`: `UpdateOne` with
`$set {status: cancelled, updatedAt: now}`, returning `ModifiedCount > 0`.
Mongo counts a matched document as modified exactly when the `$set` actually
changed it, which here means: it was not yet cancelled, or its stored
`updatedAt` differs from `now`. -/
def repoCancelBooking (r : RepoState) (id : Nat) (now : Int) :
    Except Unit (Bool × RepoState) :=
  if r.persistFails then .error ()
  else
    match r.db.find? (fun b => b.id == id) with
    | none => .ok (false, r)
    | some b =>
      let b2 := { b with status := BookingStatusCancelled, updatedAt := now }
      .ok (decide (b2 ≠ b), { r with db := replaceFirst r.db id b2 })

/-- The error vocabulary of `BookingService` (`internal/service`): the
distinct error values its methods construct or wrap. -/
inductive ServiceError where
  | notFound
  | conflict
  | repoFailure
deriving Repr, DecidableEq

/-- `BookingService.CreateBooking` (`internal/service/booking_service.go`
lines 29-66): compute the end from the duration table, query overlapping
bookings, fail on any hit, otherwise persist a pending booking. -/
def createBooking (r : RepoState) (userID barberID : String) (startTime : Int)
    (serviceType : ServiceType) (notes : String) (now : Int) :
    Except ServiceError Booking × RepoState :=
  let endTime := calculateEndTime startTime serviceType
  match getBookingsInTimeRange r barberID startTime endTime with
  | .error _ => (.error .repoFailure, r)
  | .ok existingBookings =>
    if 0 < existingBookings.length then (.error .conflict, r)
    else
      let booking : Booking :=
        { id := 0, userID := userID, barberID := barberID,
          startTime := startTime, endTime := endTime,
          serviceType := serviceType, status := BookingStatusPending,
          notes := notes, createdAt := 0, updatedAt := 0 }
      match repoCreateBooking r booking now with
      | .error _ => (.error .repoFailure, r)
      | .ok (created, r2) => (.ok created, r2)

/-- The update map `BookingService.UpdateBooking` hands to the repository once
its conflict checks have passed: `startTime`/`endTime` when a start is given
(end recomputed with the new kind if any, else the stored kind),
`serviceType` (and, without a new start, the recomputed `endTime`) when a
kind is given, and `notes` when given. -/
def buildUpdates (ex : Booking) (stOpt : Option Int) (kOpt : Option ServiceType)
    (notes : Option String) : UpdateFields :=
  let u0 : UpdateFields := {}
  let u1 :=
    match stOpt with
    | some st =>
      { u0 with startTime := some st,
                endTime := some (calculateEndTime st (kOpt.getD ex.serviceType)) }
    | none => u0
  let u2 :=
    match kOpt with
    | some k =>
      match stOpt with
      | none =>
        { u1 with serviceType := some k,
                  endTime := some (calculateEndTime ex.startTime k) }
      | some _ => { u1 with serviceType := some k }
    | none => u1
  match notes with
  | some n => { u2 with notes := some n }
  | none => u2

/-- The self-exclusion loop of `BookingService.UpdateBooking`: drop the first
element of the conflict list whose id equals the booking's own id (the Go
loop breaks after the first match). -/
def removeSelf (bookings : List Booking) (selfID : Nat) : List Booking :=
  match bookings with
  | [] => []
  | b :: rest => if b.id == selfID then rest else b :: removeSelf rest selfID

/-- The final step of `BookingService.UpdateBooking`: hand the accumulated
update map to the repository. -/
def updateCommit (r : RepoState) (id : Nat) (ex : Booking) (stOpt : Option Int)
    (kOpt : Option ServiceType) (notes : Option String) (now : Int) :
    Except ServiceError (Option Booking) × RepoState :=
  match repoUpdateBooking r id (buildUpdates ex stOpt kOpt notes) now with
  | .error _ => (.error .repoFailure, r)
  | .ok (updated, r2) => (.ok updated, r2)

/-- `BookingService.UpdateBooking` (`internal/service/booking_service.go`
lines 83-171).  Load the booking; with a new start (or, else, a new kind)
recompute the end, query overlaps, drop the booking's own record, and fail if
any conflict remains; finally apply the accumulated partial update.  Mirrors
the Go's `(nil, nil)` repository answer as `.ok none`. -/
def updateBooking (r : RepoState) (id : Nat) (stOpt : Option Int)
    (kOpt : Option ServiceType) (notes : Option String) (now : Int) :
    Except ServiceError (Option Booking) × RepoState :=
  match getBookingByID r id with
  | .error _ => (.error .repoFailure, r)
  | .ok none => (.error .notFound, r)
  | .ok (some ex) =>
    match stOpt with
    | some st =>
      let endTime := calculateEndTime st (kOpt.getD ex.serviceType)
      match getBookingsInTimeRange r ex.barberID st endTime with
      | .error _ => (.error .repoFailure, r)
      | .ok bookings =>
        if 0 < (removeSelf bookings ex.id).length then (.error .conflict, r)
        else updateCommit r id ex stOpt kOpt notes now
    | none =>
      match kOpt with
      | some k =>
        let endTime := calculateEndTime ex.startTime k
        match getBookingsInTimeRange r ex.barberID ex.startTime endTime with
        | .error _ => (.error .repoFailure, r)
        | .ok bookings =>
          if 0 < (removeSelf bookings ex.id).length then (.error .conflict, r)
          else updateCommit r id ex stOpt kOpt notes now
      | none => updateCommit r id ex stOpt kOpt notes now

/-- `BookingService.CancelBooking` (`internal/service/booking_service.go`
lines 174-191): pass through the repository's changed/not-changed answer,
wrapping driver errors. -/
def cancelBooking (r : RepoState) (id : Nat) (now : Int) :
    Except ServiceError Bool × RepoState :=
  match repoCancelBooking r id now with
  | .error _ => (.error .repoFailure, r)
  | .ok (success, r2) => (.ok success, r2)

/-- The slot loop of `BookingService.GetAvailableTimeSlots`: step the slot
start by 30 minutes while it is before the working-window end, keeping the
available slots in order. -/
def slotLoop (bookings : List Booking) (workEnd : Int) (slotStart : Int) :
    List TimeSlot :=
  if h : slotStart < workEnd then
    (if slotIsAvailable bookings slotStart (slotStart + 30) then
      [{ startTime := slotStart, endTime := slotStart + 30 }]
     else []) ++ slotLoop bookings workEnd (slotStart + 30)
  else []
termination_by (workEnd - slotStart).toNat
decreasing_by
  omega

/-- `BookingService.GetAvailableTimeSlots` (`internal/service` lines
214-261): working window 09:00-17:00 of the day, the day's bookings from the
repository, 30-minute slots kept when they conflict with no non-cancelled
booking.  `startOfDay` is the day's midnight instant. -/
def getAvailableTimeSlots (r : RepoState) (barberID : String)
    (startOfDay : Int) : Except ServiceError (List TimeSlot) :=
  let workStart := startOfDay + 9 * 60
  let workEnd := startOfDay + 17 * 60
  match getBarberBookings r barberID (some startOfDay) with
  | .error _ => .error .repoFailure
  | .ok bookings => .ok (slotLoop bookings workEnd workStart)

/-- The update request of the gRPC layer (`internal/grpc/booking_server.go`):
proto3 scalar fields.  `startTime` is `none` for the empty string and
`some t` for a well-formed RFC3339 string (the malformed-string rejection
happens before the core and is outside these claims). -/
structure UpdateBookingRequest where
  id : Nat
  startTime : Option Int := none
  serviceType : Int := 0
  notes : String := ""
deriving Repr, DecidableEq

/-- The service-kind conversion of `BookingServer.UpdateBooking` (lines
88-92): a kind is passed down only when the request's enum differs from the
zero value `HAIRCUT`. -/
def protoServiceTypeOpt (st : Int) : Option ServiceType :=
  if st ≠ ServiceTypeHaircut then some st else none

/-- `BookingServer.UpdateBooking` (`internal/grpc/booking_server.go` lines
75-106), from the conversion of the request fields down to the core call;
`&req.Notes` is always a non-nil pointer, hence `some req.notes`. -/
def serverUpdateBooking (r : RepoState) (req : UpdateBookingRequest)
    (now : Int) : Except ServiceError (Option Booking) × RepoState :=
  updateBooking r req.id req.startTime (protoServiceTypeOpt req.serviceType)
    (some req.notes) now

/-- Concrete booking used to instantiate claim theorems. -/
def wBooking : Booking :=
  { id := 7, userID := "u", barberID := "b", startTime := 0, endTime := 30,
    serviceType := 0, status := 0, notes := "", createdAt := 0,
    updatedAt := 0 }

/-- Concrete store used to instantiate claim theorems. -/
def wRepo : RepoState := { db := [wBooking] }

/-- An already-cancelled stored booking whose `updatedAt` differs from the
next `now`. -/
def alreadyCancelled : Booking :=
  { id := 1, userID := "u", barberID := "b", startTime := 600, endTime := 630,
    serviceType := 0, status := BookingStatusCancelled, notes := "",
    createdAt := 0, updatedAt := 0 }

/-- Concrete result of a successful haircut-table Create used by the C8
witness. -/
def wCreated : Booking :=
  { id := 1, userID := "u", barberID := "b", startTime := 600,
    endTime := 660, serviceType := ServiceTypeFullService,
    status := BookingStatusPending, notes := "", createdAt := 7,
    updatedAt := 7 }

/-- A stored booking with non-empty notes, used by the C10 witness. -/
def wNoted : Booking := { wBooking with id := 8, notes := "old" }

/-- A store holding `wNoted`, used by the C10 witness. -/
def wRepoNoted : RepoState := { db := [wNoted] }

/-! ### Helper lemmas -/

lemma getDuration_pos (k : ServiceType) : 0 < getDuration k := by
  unfold getDuration
  repeat' split
  all_goals norm_num

lemma calculateEndTime_gt (st : Int) (k : ServiceType) :
    st < calculateEndTime st k := by
  have := getDuration_pos k
  unfold calculateEndTime
  omega

lemma threeClause_iff (bs be qs qe : Int) (hb : bs < be) (hq : qs < qe) :
    (((qs ≤ bs ∧ bs < qe) ∨ (qs < be ∧ be ≤ qe)) ∨ (bs ≤ qs ∧ be ≥ qe)) ↔
      bs < qe ∧ qs < be := by
  omega

lemma slotClause_iff (bs be s e : Int) (hb : bs < be) (hs : s < e) :
    (((bs ≤ s ∧ s < be) ∨ (bs < e ∧ e ≤ be)) ∨ (s < bs ∧ be < e)) ↔
      bs < e ∧ s < be := by
  omega

lemma inTimeRangeFilter_iff (barberID : String) (qs qe : Int) (b : Booking)
    (hb : b.startTime < b.endTime) (hq : qs < qe) :
    inTimeRangeFilter barberID qs qe b = true ↔
      b.barberID = barberID ∧ b.status ≠ BookingStatusCancelled ∧
      b.startTime < qe ∧ qs < b.endTime := by
  unfold inTimeRangeFilter
  simp only [Bool.and_eq_true, Bool.or_eq_true, beq_iff_eq, Bool.not_eq_true',
    beq_eq_false_iff_ne, decide_eq_true_eq]
  rw [and_assoc]
  constructor
  · rintro ⟨h1, h2, h3⟩
    exact ⟨h1, h2, (threeClause_iff _ _ _ _ hb hq).mp h3⟩
  · rintro ⟨h1, h2, h3⟩
    exact ⟨h1, h2, (threeClause_iff _ _ _ _ hb hq).mpr h3⟩

lemma slotConflictsWith_iff (s e : Int) (b : Booking)
    (hb : b.startTime < b.endTime) (hs : s < e) :
    slotConflictsWith s e b = true ↔ b.startTime < e ∧ s < b.endTime := by
  unfold slotConflictsWith
  simp only [Bool.and_eq_true, Bool.or_eq_true, decide_eq_true_eq]
  exact slotClause_iff _ _ _ _ hb hs

lemma mem_filter_inTimeRange (db : List Booking) (bar : String) (qs qe : Int)
    (b : Booking) (hb : b.startTime < b.endTime) (hq : qs < qe) :
    b ∈ db.filter (inTimeRangeFilter bar qs qe) ↔
      b ∈ db ∧ b.barberID = bar ∧ b.status ≠ BookingStatusCancelled ∧
      b.startTime < qe ∧ qs < b.endTime := by
  rw [List.mem_filter, inTimeRangeFilter_iff _ _ _ _ hb hq]

lemma filter_inTimeRange_pos_iff (db : List Booking) (bar : String)
    (qs qe : Int) (hq : qs < qe)
    (hwf : ∀ b ∈ db, b.startTime < b.endTime) :
    0 < (db.filter (inTimeRangeFilter bar qs qe)).length ↔
      ∃ b ∈ db, b.barberID = bar ∧ b.status ≠ BookingStatusCancelled ∧
        b.startTime < qe ∧ qs < b.endTime := by
  rw [List.length_pos_iff_exists_mem]
  constructor
  · rintro ⟨b, hmem⟩
    have hdb := (List.mem_filter.mp hmem).1
    exact ⟨b, (mem_filter_inTimeRange db bar qs qe b (hwf b hdb) hq).mp hmem⟩
  · rintro ⟨b, hdb, hprops⟩
    exact ⟨b, (mem_filter_inTimeRange db bar qs qe b (hwf b hdb) hq).mpr
      ⟨hdb, hprops⟩⟩

lemma slotIsAvailable_false_iff (bs : List Booking) (s e : Int)
    (hwf : ∀ x ∈ bs, x.startTime < x.endTime) (hs : s < e) :
    slotIsAvailable bs s e = false ↔
      ∃ x ∈ bs, x.status ≠ BookingStatusCancelled ∧
        x.startTime < e ∧ s < x.endTime := by
  constructor
  · intro h
    by_contra hc
    push_neg at hc
    have htrue : slotIsAvailable bs s e = true := by
      unfold slotIsAvailable
      rw [List.all_eq_true]
      intro x hx
      by_cases hst : x.status = BookingStatusCancelled
      · simp [hst]
      · have hov := hc x hx hst
        have : slotConflictsWith s e x = false := by
          rw [← Bool.not_eq_true, slotConflictsWith_iff _ _ _ (hwf x hx) hs]
          omega
        simp [this]
    rw [h] at htrue
    exact Bool.false_ne_true htrue
  · rintro ⟨x, hx, hst, h1, h2⟩
    rw [← Bool.not_eq_true]
    intro hall
    unfold slotIsAvailable at hall
    rw [List.all_eq_true] at hall
    have := hall x hx
    rw [(by simp [hst] : (x.status == BookingStatusCancelled) = false)] at this
    simp only [Bool.false_or, Bool.not_eq_true'] at this
    have hconf : slotConflictsWith s e x = true :=
      (slotConflictsWith_iff _ _ _ (hwf x hx) hs).mpr ⟨h1, h2⟩
    rw [this] at hconf
    exact Bool.false_ne_true hconf

lemma slotIsAvailable_of_allCancelled (bs : List Booking) (s e : Int)
    (hall : ∀ b ∈ bs, b.status = BookingStatusCancelled) :
    slotIsAvailable bs s e = true := by
  unfold slotIsAvailable
  rw [List.all_eq_true]
  intro x hx
  simp [hall x hx]

lemma removeSelf_eq_filter (l : List Booking) (sid : Nat)
    (h : (l.map Booking.id).Nodup) :
    removeSelf l sid = l.filter fun b => !(b.id == sid) := by
  induction l with
  | nil => rfl
  | cons b rest ih =>
    simp only [List.map_cons, List.nodup_cons, List.mem_map] at h
    obtain ⟨hnotin, hrest⟩ := h
    by_cases hb : b.id = sid
    · have hbeq : (b.id == sid) = true := by simp [hb]
      rw [removeSelf, if_pos hbeq, List.filter_cons_of_neg (by simp [hbeq])]
      rw [List.filter_eq_self.mpr]
      intro a ha
      have : b.id ≠ a.id := fun hcontra => hnotin ⟨a, ha, hcontra.symm⟩
      simp only [Bool.not_eq_true']
      simp only [beq_eq_false_iff_ne, ne_eq]
      omega
    · have hbeq : (b.id == sid) = false := by simp [hb]
      rw [removeSelf, if_neg (by simp [hbeq]), ih hrest,
        List.filter_cons_of_pos (by simp [hbeq])]

lemma nodup_ids_filter (db : List Booking) (p : Booking → Bool)
    (h : (db.map Booking.id).Nodup) :
    ((db.filter p).map Booking.id).Nodup :=
  ((db.filter_sublist (p := p)).map Booking.id).nodup h

lemma removeSelf_pos_iff (db : List Booking) (bar : String) (qs qe : Int)
    (sid : Nat) (hnodup : (db.map Booking.id).Nodup) (hq : qs < qe)
    (hwf : ∀ b ∈ db, b.startTime < b.endTime) :
    0 < (removeSelf (db.filter (inTimeRangeFilter bar qs qe)) sid).length ↔
      ∃ b ∈ db, b.id ≠ sid ∧ b.barberID = bar ∧
        b.status ≠ BookingStatusCancelled ∧
        b.startTime < qe ∧ qs < b.endTime := by
  rw [removeSelf_eq_filter _ _ (nodup_ids_filter db _ hnodup),
    List.length_pos_iff_exists_mem]
  constructor
  · rintro ⟨b, hmem⟩
    rw [List.mem_filter] at hmem
    obtain ⟨hmem1, hid⟩ := hmem
    have hdb := (List.mem_filter.mp hmem1).1
    have := (mem_filter_inTimeRange db bar qs qe b (hwf b hdb) hq).mp hmem1
    refine ⟨b, hdb, ?_, this.2.1, this.2.2.1, this.2.2.2⟩
    simpa using hid
  · rintro ⟨b, hdb, hid, hprops⟩
    refine ⟨b, List.mem_filter.mpr ⟨?_, by simpa using hid⟩⟩
    exact (mem_filter_inTimeRange db bar qs qe b (hwf b hdb) hq).mpr ⟨hdb, hprops⟩

lemma slotLoop_step (bookings : List Booking) (workEnd slotStart : Int)
    (h : slotStart < workEnd) :
    slotLoop bookings workEnd slotStart =
      (if slotIsAvailable bookings slotStart (slotStart + 30) then
        [{ startTime := slotStart, endTime := slotStart + 30 }]
       else []) ++ slotLoop bookings workEnd (slotStart + 30) := by
  rw [slotLoop]
  rw [dif_pos h]

lemma slotLoop_stop (bookings : List Booking) (workEnd slotStart : Int)
    (h : ¬ slotStart < workEnd) :
    slotLoop bookings workEnd slotStart = [] := by
  rw [slotLoop]
  rw [dif_neg h]

lemma slotLoop_all_available (bookings : List Booking)
    (hav : ∀ s : Int, slotIsAvailable bookings s (s + 30) = true) :
    ∀ (n : Nat) (s : Int),
      slotLoop bookings (s + 30 * (n : Int)) s =
        (List.range n).map fun i =>
          { startTime := s + 30 * (i : Int),
            endTime := s + 30 * (i : Int) + 30 } := by
  intro n
  induction n with
  | zero =>
    intro s
    rw [slotLoop_stop _ _ _ (by push_cast; omega)]
    simp
  | succ m ih =>
    intro s
    rw [slotLoop_step _ _ _ (by push_cast; omega), hav s, if_pos rfl]
    have harg : s + 30 * ((m + 1 : Nat) : Int) = (s + 30) + 30 * (m : Int) := by
      push_cast
      ring
    rw [harg, ih (s + 30), List.range_succ_eq_map, List.map_cons,
      List.map_map]
    simp only [List.singleton_append, List.cons.injEq]
    constructor
    · simp
    · apply List.map_congr_left
      intro i _
      simp only [Function.comp_apply, TimeSlot.mk.injEq]
      push_cast
      constructor <;> ring

lemma updateCommit_ok (r : RepoState) (id : Nat) (ex : Booking)
    (stOpt : Option Int) (kOpt : Option ServiceType) (notes : Option String)
    (now : Int) (hpf : r.persistFails = false)
    (hfind : (r.db.find? fun b => b.id == id) = some ex) :
    updateCommit r id ex stOpt kOpt notes now =
      (.ok (some (applyUpdates ex (buildUpdates ex stOpt kOpt notes) now)),
       { r with db := replaceFirst r.db id (applyUpdates ex (buildUpdates ex stOpt kOpt notes) now) }) := by
  unfold updateCommit repoUpdateBooking
  rw [hpf, hfind]
  simp

lemma updateBooking_found_start (r : RepoState) (id : Nat) (st : Int)
    (kOpt : Option ServiceType) (notes : Option String) (now : Int)
    (ex : Booking) (hgf : r.getFails = false) (hqf : r.queryFails = false)
    (hfind : (r.db.find? fun b => b.id == id) = some ex) :
    updateBooking r id (some st) kOpt notes now =
      if 0 < (removeSelf (r.db.filter (inTimeRangeFilter ex.barberID st
          (calculateEndTime st (kOpt.getD ex.serviceType)))) ex.id).length
      then (.error .conflict, r)
      else updateCommit r id ex (some st) kOpt notes now := by
  unfold updateBooking getBookingByID getBookingsInTimeRange
  rw [hgf, hqf]
  simp only [Bool.false_eq_true, if_false, hfind]

lemma updateBooking_found_kindOnly (r : RepoState) (id : Nat)
    (k : ServiceType) (notes : Option String) (now : Int) (ex : Booking)
    (hgf : r.getFails = false) (hqf : r.queryFails = false)
    (hfind : (r.db.find? fun b => b.id == id) = some ex) :
    updateBooking r id none (some k) notes now =
      if 0 < (removeSelf (r.db.filter (inTimeRangeFilter ex.barberID
          ex.startTime (calculateEndTime ex.startTime k))) ex.id).length
      then (.error .conflict, r)
      else updateCommit r id ex none (some k) notes now := by
  unfold updateBooking getBookingByID getBookingsInTimeRange
  rw [hgf, hqf]
  simp only [Bool.false_eq_true, if_false, hfind]

lemma updateBooking_found_noTimes (r : RepoState) (id : Nat)
    (notes : Option String) (now : Int) (ex : Booking)
    (hgf : r.getFails = false)
    (hfind : (r.db.find? fun b => b.id == id) = some ex) :
    updateBooking r id none none notes now = updateCommit r id ex none none notes now := by
  unfold updateBooking getBookingByID
  rw [hgf]
  simp only [Bool.false_eq_true, if_false, hfind]

lemma specOverlap_iff (s1 e1 s2 e2 : Int) :
    specOverlap s1 e1 s2 e2 = true ↔ s1 < e2 ∧ s2 < e1 := by
  simp [specOverlap]

/-- C1: for well-formed bookings (start < end) and a well-formed query
interval (qs < qe), the repository's three-clause `$or` filter and the slot
loop's three-clause test are each equivalent to the spec's strict half-open
overlap predicate `s1 < e2 AND s2 < e1`; the range query selects exactly the
non-cancelled bookings of the provider that strictly overlap the query
interval, and the slot test rejects a slot exactly when some non-cancelled
booking strictly overlaps it, so cancelled bookings are never selected. -/
theorem overlap_filter_equiv_spec (r : RepoState) (barberID : String)
    (qs qe : Int) (b : Booking) (bs : List Booking)
    (hb : b.startTime < b.endTime) (hq : qs < qe)
    (hwf : ∀ x ∈ bs, x.startTime < x.endTime)
    (hqf : r.queryFails = false) :
    (inTimeRangeFilter barberID qs qe b = true ↔
      b.barberID = barberID ∧ b.status ≠ BookingStatusCancelled ∧
      specOverlap b.startTime b.endTime qs qe = true)
    ∧ getBookingsInTimeRange r barberID qs qe =
        .ok (r.db.filter (inTimeRangeFilter barberID qs qe))
    ∧ (b ∈ r.db.filter (inTimeRangeFilter barberID qs qe) ↔
        b ∈ r.db ∧ b.barberID = barberID ∧
        b.status ≠ BookingStatusCancelled ∧
        specOverlap b.startTime b.endTime qs qe = true)
    ∧ (slotConflictsWith qs qe b = true ↔
        specOverlap b.startTime b.endTime qs qe = true)
    ∧ (slotIsAvailable bs qs qe = false ↔
        ∃ x ∈ bs, x.status ≠ BookingStatusCancelled ∧
          specOverlap x.startTime x.endTime qs qe = true) := by
  refine ⟨?_, ?_, ?_, ?_, ?_⟩
  · rw [inTimeRangeFilter_iff _ _ _ _ hb hq, specOverlap_iff]
  · unfold getBookingsInTimeRange
    rw [hqf]
    simp
  · rw [mem_filter_inTimeRange _ _ _ _ _ hb hq, specOverlap_iff]
  · rw [slotConflictsWith_iff _ _ _ hb hq, specOverlap_iff]
  · rw [slotIsAvailable_false_iff _ _ _ hwf hq]
    simp only [specOverlap_iff]

theorem overlap_filter_equiv_spec_witness :
    (wBooking.startTime < wBooking.endTime ∧ (10 : Int) < 20) ∧
    ((inTimeRangeFilter "b" 10 20 wBooking = true ↔
        wBooking.barberID = "b" ∧ wBooking.status ≠ BookingStatusCancelled ∧
        specOverlap wBooking.startTime wBooking.endTime 10 20 = true)
     ∧ getBookingsInTimeRange wRepo "b" 10 20 =
         .ok (wRepo.db.filter (inTimeRangeFilter "b" 10 20))
     ∧ (wBooking ∈ wRepo.db.filter (inTimeRangeFilter "b" 10 20) ↔
         wBooking ∈ wRepo.db ∧ wBooking.barberID = "b" ∧
         wBooking.status ≠ BookingStatusCancelled ∧
         specOverlap wBooking.startTime wBooking.endTime 10 20 = true)
     ∧ (slotConflictsWith 10 20 wBooking = true ↔
         specOverlap wBooking.startTime wBooking.endTime 10 20 = true)
     ∧ (slotIsAvailable [wBooking] 10 20 = false ↔
         ∃ x ∈ [wBooking], x.status ≠ BookingStatusCancelled ∧
           specOverlap x.startTime x.endTime 10 20 = true)) :=
  ⟨⟨by decide, by decide⟩,
   overlap_filter_equiv_spec wRepo "b" 10 20 wBooking [wBooking]
     (by decide) (by decide) (by decide) rfl⟩

/-- C2: `CreateBooking` computes `end = start + duration(kind)`; it fails
with the scheduling-conflict error when the repository reports at least one
non-cancelled booking of the provider strictly overlapping `[start, end)`,
fails with the repository error when persistence fails, and otherwise
returns a new booking with status pending, the requested start, and
`end = start + duration(kind)`. -/
theorem createBooking_behavior (r : RepoState) (userID barberID : String)
    (st : Int) (k : ServiceType) (notes : String) (now : Int)
    (hqf : r.queryFails = false)
    (hwf : ∀ b ∈ r.db, b.startTime < b.endTime) :
    ((∃ b ∈ r.db, b.barberID = barberID ∧
        b.status ≠ BookingStatusCancelled ∧
        b.startTime < st + getDuration k ∧ st < b.endTime) →
      (createBooking r userID barberID st k notes now).1 = .error .conflict)
    ∧ ((¬ ∃ b ∈ r.db, b.barberID = barberID ∧
        b.status ≠ BookingStatusCancelled ∧
        b.startTime < st + getDuration k ∧ st < b.endTime) →
      r.persistFails = true →
      (createBooking r userID barberID st k notes now).1 =
        .error .repoFailure)
    ∧ ((¬ ∃ b ∈ r.db, b.barberID = barberID ∧
        b.status ≠ BookingStatusCancelled ∧
        b.startTime < st + getDuration k ∧ st < b.endTime) →
      r.persistFails = false →
      ∃ nb, (createBooking r userID barberID st k notes now).1 = .ok nb ∧
        nb.status = BookingStatusPending ∧ nb.startTime = st ∧
        nb.endTime = st + getDuration k ∧ nb.userID = userID ∧
        nb.barberID = barberID ∧ nb.serviceType = k ∧ nb.notes = notes) := by
  have hq : st < calculateEndTime st k := calculateEndTime_gt st k
  have hiff := filter_inTimeRange_pos_iff r.db barberID st
    (calculateEndTime st k) hq hwf
  have hcalc : calculateEndTime st k = st + getDuration k := rfl
  rw [hcalc] at hiff
  unfold createBooking getBookingsInTimeRange
  rw [hqf]
  simp only [Bool.false_eq_true, if_false]
  rw [hcalc]
  refine ⟨?_, ?_, ?_⟩
  · intro hex
    rw [if_pos (hiff.mpr hex)]
  · intro hnex hpf
    rw [if_neg (fun hp => hnex (hiff.mp hp))]
    unfold repoCreateBooking
    rw [hpf]
    simp
  · intro hnex hpf
    rw [if_neg (fun hp => hnex (hiff.mp hp))]
    unfold repoCreateBooking
    rw [hpf]
    simp only [Bool.false_eq_true, if_false]
    exact ⟨_, rfl, rfl, rfl, rfl, rfl, rfl, rfl, rfl⟩

theorem createBooking_behavior_witness :
    (¬ ∃ b ∈ wRepo.db, b.barberID = "c" ∧
      b.status ≠ BookingStatusCancelled ∧
      b.startTime < 600 + getDuration 0 ∧ 600 < b.endTime) ∧
    (∃ nb, (createBooking wRepo "u2" "c" 600 0 "hello" 7).1 = .ok nb ∧
      nb.status = BookingStatusPending ∧ nb.startTime = 600 ∧
      nb.endTime = 600 + getDuration 0 ∧ nb.userID = "u2" ∧
      nb.barberID = "c" ∧ nb.serviceType = 0 ∧ nb.notes = "hello") :=
  ⟨by decide,
   (createBooking_behavior wRepo "u2" "c" 600 0 "hello" 7 rfl
     (by decide)).2.2 (by decide) rfl⟩

lemma buildUpdates_fields (ex : Booking) (stOpt : Option Int)
    (kOpt : Option ServiceType) (notes : Option String) :
    (buildUpdates ex stOpt kOpt notes).startTime = stOpt ∧
    (buildUpdates ex stOpt kOpt notes).serviceType = kOpt ∧
    (buildUpdates ex stOpt kOpt notes).notes = notes ∧
    (buildUpdates ex stOpt kOpt notes).endTime =
      (match stOpt, kOpt with
       | some st, _ => some (calculateEndTime st (kOpt.getD ex.serviceType))
       | none, some k => some (calculateEndTime ex.startTime k)
       | none, none => none) := by
  rcases stOpt with _ | st <;> rcases kOpt with _ | k <;>
    rcases notes with _ | n <;> simp [buildUpdates]

/-- C3: for an update of an existing booking that supplies a new start time
(and optionally a new kind), or only a new kind, the effective kind is the
new kind if supplied else the stored one, the end is recomputed from the
effective start and kind, the conflict set is the provider's overlap query
over the recomputed interval with the booking's own record removed by
identity, and the update fails with a conflict exactly when some OTHER
booking strictly overlaps; when no other booking overlaps, the update
succeeds even though the naive query returns the booking itself. -/
theorem updateBooking_self_exclusion (r : RepoState) (id : Nat)
    (stOpt : Option Int) (kOpt : Option ServiceType) (notes : Option String)
    (now : Int) (ex : Booking)
    (hgf : r.getFails = false) (hqf : r.queryFails = false)
    (hpf : r.persistFails = false)
    (hfind : (r.db.find? fun b => b.id == id) = some ex)
    (hnodup : (r.db.map Booking.id).Nodup)
    (hwf : ∀ x ∈ r.db, x.startTime < x.endTime)
    (hsome : stOpt ≠ none ∨ kOpt ≠ none) :
    ((updateBooking r id stOpt kOpt notes now).1 = .error .conflict ↔
      ∃ b ∈ r.db, b.id ≠ ex.id ∧ b.barberID = ex.barberID ∧
        b.status ≠ BookingStatusCancelled ∧
        b.startTime < (stOpt.getD ex.startTime) +
          getDuration (kOpt.getD ex.serviceType) ∧
        stOpt.getD ex.startTime < b.endTime)
    ∧ ((¬ ∃ b ∈ r.db, b.id ≠ ex.id ∧ b.barberID = ex.barberID ∧
        b.status ≠ BookingStatusCancelled ∧
        b.startTime < (stOpt.getD ex.startTime) +
          getDuration (kOpt.getD ex.serviceType) ∧
        stOpt.getD ex.startTime < b.endTime) →
      ∃ b2, (updateBooking r id stOpt kOpt notes now).1 = .ok (some b2) ∧
        b2.startTime = stOpt.getD ex.startTime ∧
        b2.endTime = (stOpt.getD ex.startTime) +
          getDuration (kOpt.getD ex.serviceType) ∧
        b2.serviceType = kOpt.getD ex.serviceType) := by
  obtain ⟨hu1, hu2, hu3, hu4⟩ := buildUpdates_fields ex stOpt kOpt notes
  rcases stOpt with _ | st
  · rcases kOpt with _ | k
    · exact absurd hsome (by simp)
    · have hq : ex.startTime < calculateEndTime ex.startTime k :=
        calculateEndTime_gt ex.startTime k
      have hiff := removeSelf_pos_iff r.db ex.barberID ex.startTime
        (calculateEndTime ex.startTime k) ex.id hnodup hq hwf
      rw [updateBooking_found_kindOnly r id k notes now ex hgf hqf hfind]
      have hgd : calculateEndTime ex.startTime k =
          ex.startTime + getDuration k := rfl
      constructor
      · constructor
        · intro hconf
          by_cases hpos : 0 < (removeSelf (r.db.filter (inTimeRangeFilter
              ex.barberID ex.startTime (calculateEndTime ex.startTime k)))
              ex.id).length
          · simpa [hgd] using hiff.mp hpos
          · rw [if_neg hpos, updateCommit_ok r id ex none (some k) notes now
              hpf hfind] at hconf
            exact absurd hconf (by simp)
        · intro hex
          rw [if_pos (hiff.mpr (by simpa [hgd] using hex))]
      · intro hnex
        rw [if_neg (fun hpos => hnex (by simpa [hgd] using hiff.mp hpos)),
          updateCommit_ok r id ex none (some k) notes now hpf hfind]
        refine ⟨_, rfl, ?_, ?_, ?_⟩ <;>
          simp [applyUpdates, hu1, hu2, hu4, calculateEndTime]
  · have hq : st < calculateEndTime st (kOpt.getD ex.serviceType) :=
      calculateEndTime_gt st (kOpt.getD ex.serviceType)
    have hiff := removeSelf_pos_iff r.db ex.barberID st
      (calculateEndTime st (kOpt.getD ex.serviceType)) ex.id hnodup hq hwf
    rw [updateBooking_found_start r id st kOpt notes now ex hgf hqf hfind]
    have hgd : calculateEndTime st (kOpt.getD ex.serviceType) =
        st + getDuration (kOpt.getD ex.serviceType) := rfl
    constructor
    · constructor
      · intro hconf
        by_cases hpos : 0 < (removeSelf (r.db.filter (inTimeRangeFilter
            ex.barberID st (calculateEndTime st (kOpt.getD ex.serviceType))))
            ex.id).length
        · simpa [hgd] using hiff.mp hpos
        · rw [if_neg hpos, updateCommit_ok r id ex (some st) kOpt notes now
            hpf hfind] at hconf
          exact absurd hconf (by simp)
      · intro hex
        rw [if_pos (hiff.mpr (by simpa [hgd] using hex))]
    · intro hnex
      rw [if_neg (fun hpos => hnex (by simpa [hgd] using hiff.mp hpos)),
        updateCommit_ok r id ex (some st) kOpt notes now hpf hfind]
      refine ⟨_, rfl, ?_, ?_, ?_⟩ <;>
        simp [applyUpdates, hu1, hu2, hu4, calculateEndTime]

theorem updateBooking_self_exclusion_witness :
    (¬ ∃ b ∈ wRepo.db, b.id ≠ wBooking.id ∧
      b.barberID = wBooking.barberID ∧
      b.status ≠ BookingStatusCancelled ∧
      b.startTime < ((some (10 : Int)).getD wBooking.startTime) +
        getDuration ((none : Option ServiceType).getD wBooking.serviceType) ∧
      ((some (10 : Int)).getD wBooking.startTime) < b.endTime) ∧
    (∃ b2, (updateBooking wRepo 7 (some 10) none none 9).1 = .ok (some b2) ∧
      b2.startTime = (some (10 : Int)).getD wBooking.startTime ∧
      b2.endTime = ((some (10 : Int)).getD wBooking.startTime) +
        getDuration ((none : Option ServiceType).getD wBooking.serviceType) ∧
      b2.serviceType =
        (none : Option ServiceType).getD wBooking.serviceType) := by
  have h := updateBooking_self_exclusion wRepo 7 (some 10) none none 9
    wBooking rfl rfl rfl (by decide) (by decide) (by decide) (by simp)
  exact ⟨by decide, h.2 (by decide)⟩

/-- C4: an update that supplies only notes performs no overlap query (the
result is unchanged even when the range query would fail), leaves start,
end, kind, status, owner, provider and creation time untouched, and writes
exactly the new notes plus the refreshed update timestamp; in general the
repository's partial update leaves every omitted field untouched. -/
theorem updateBooking_notes_only (r : RepoState) (id : Nat) (n : String)
    (now : Int) (ex : Booking) (hgf : r.getFails = false)
    (hpf : r.persistFails = false)
    (hfind : (r.db.find? fun b => b.id == id) = some ex) :
    (updateBooking r id none none (some n) now).1 =
      .ok (some { ex with notes := n, updatedAt := now })
    ∧ (updateBooking r id none none (some n) now).2.db =
        replaceFirst r.db id { ex with notes := n, updatedAt := now }
    ∧ (updateBooking { r with queryFails := true } id none none (some n)
        now).1 = (updateBooking r id none none (some n) now).1
    ∧ (∀ (b : Booking) (u : UpdateFields) (t : Int),
        (u.startTime = none → (applyUpdates b u t).startTime = b.startTime) ∧
        (u.endTime = none → (applyUpdates b u t).endTime = b.endTime) ∧
        (u.serviceType = none →
          (applyUpdates b u t).serviceType = b.serviceType) ∧
        (u.notes = none → (applyUpdates b u t).notes = b.notes)) := by
  have h1 := updateBooking_found_noTimes r id (some n) now ex hgf hfind
  have h2 := updateCommit_ok r id ex none none (some n) now hpf hfind
  have h1q := updateBooking_found_noTimes { r with queryFails := true } id
    (some n) now ex hgf hfind
  have h2q := updateCommit_ok { r with queryFails := true } id ex none none
    (some n) now hpf hfind
  refine ⟨?_, ?_, ?_, ?_⟩
  · rw [h1, h2]
    rfl
  · rw [h1, h2]
    rfl
  · rw [h1, h2, h1q, h2q]
  · intro b u t
    refine ⟨fun h => ?_, fun h => ?_, fun h => ?_, fun h => ?_⟩ <;>
      simp [applyUpdates, h]

theorem updateBooking_notes_only_witness :
    (updateBooking wRepo 7 none none (some "x") 9).1 =
      .ok (some { wBooking with notes := "x", updatedAt := 9 }) :=
  (updateBooking_notes_only wRepo 7 "x" 9 wBooking rfl rfl (by decide)).1

/-- C5 evaluation: cancelling a missing booking reports no change (`false`),
but cancelling an already-cancelled booking reports a change (`true`),
because the `$set` always rewrites `updatedAt` and Mongo's `ModifiedCount`
counts the document as modified; neither call returns an error. -/
theorem cancelBooking_already_cancelled_reports_change :
    alreadyCancelled.status = BookingStatusCancelled ∧
    (cancelBooking { db := [alreadyCancelled] } 1 5).1 = .ok true ∧
    (cancelBooking { db := [alreadyCancelled] } 2 5).1 = .ok false :=
  ⟨rfl, rfl, rfl⟩

/-- C6: for a provider with no non-cancelled booking starting on the day,
the slot enumeration returns exactly 16 slots, each 30 minutes long,
contiguous (each slot starts where the previous one ends, hence
non-overlapping and chronological), the first starting at 09:00 and the
last ending at 17:00 of the day. -/
theorem emptyDay_sixteen_slots (r : RepoState) (barberID : String)
    (d0 : Int) (hqf : r.queryFails = false)
    (hfree : ∀ b ∈ r.db, b.barberID = barberID → d0 ≤ b.startTime →
      b.startTime < d0 + 24 * 60 → b.status = BookingStatusCancelled) :
    ∃ slots, getAvailableTimeSlots r barberID d0 = .ok slots ∧
      slots.length = 16 ∧
      (∀ s ∈ slots, s.endTime = s.startTime + 30) ∧
      (∀ (i : Nat) (h1 : i < slots.length) (h2 : i + 1 < slots.length),
        (slots.get ⟨i + 1, h2⟩).startTime = (slots.get ⟨i, h1⟩).endTime) ∧
      (∀ h0 : 0 < slots.length,
        (slots.get ⟨0, h0⟩).startTime = d0 + 9 * 60) ∧
      (∀ h15 : 15 < slots.length,
        (slots.get ⟨15, h15⟩).endTime = d0 + 17 * 60) := by
  have hcancelled : ∀ b ∈ r.db.filter (barberDayFilter barberID (some d0)),
      b.status = BookingStatusCancelled := by
    intro b hb
    rw [List.mem_filter] at hb
    obtain ⟨hmem, hfl⟩ := hb
    unfold barberDayFilter at hfl
    simp only [Bool.and_eq_true, beq_iff_eq, decide_eq_true_eq] at hfl
    exact hfree b hmem hfl.1 hfl.2.1 hfl.2.2
  have hav : ∀ s : Int, slotIsAvailable
      (r.db.filter (barberDayFilter barberID (some d0))) s (s + 30) = true :=
    fun s => slotIsAvailable_of_allCancelled _ _ _ hcancelled
  have hloop := slotLoop_all_available
    (r.db.filter (barberDayFilter barberID (some d0))) hav 16 (d0 + 9 * 60)
  have hend : (d0 + 9 * 60) + 30 * ((16 : Nat) : Int) = d0 + 17 * 60 := by
    push_cast
    omega
  rw [hend] at hloop
  refine ⟨(List.range 16).map (fun (i : Nat) =>
      { startTime := d0 + 9 * 60 + 30 * (i : Int),
        endTime := d0 + 9 * 60 + 30 * (i : Int) + 30 }),
    ?_, ?_, ?_, ?_, ?_, ?_⟩
  · unfold getAvailableTimeSlots getBarberBookings
    rw [hqf]
    simp only [Bool.false_eq_true, if_false]
    rw [hloop]
  · simp
  · intro s hs
    simp only [List.mem_map, List.mem_range] at hs
    obtain ⟨i, _, rfl⟩ := hs
    rfl
  · intro i h1 h2
    simp only [List.get_eq_getElem, List.getElem_map, List.getElem_range]
    push_cast
    ring
  · intro h0
    simp only [List.get_eq_getElem, List.getElem_map, List.getElem_range]
    push_cast
    omega
  · intro h15
    simp only [List.get_eq_getElem, List.getElem_map, List.getElem_range]
    push_cast
    omega

theorem emptyDay_sixteen_slots_witness :
    (∀ b ∈ (({ db := [] } : RepoState)).db, b.barberID = "b" →
      (0 : Int) ≤ b.startTime → b.startTime < 0 + 24 * 60 →
      b.status = BookingStatusCancelled) ∧
    (∃ slots, getAvailableTimeSlots { db := [] } "b" 0 = .ok slots ∧
      slots.length = 16 ∧
      (∀ s ∈ slots, s.endTime = s.startTime + 30) ∧
      (∀ (i : Nat) (h1 : i < slots.length) (h2 : i + 1 < slots.length),
        (slots.get ⟨i + 1, h2⟩).startTime = (slots.get ⟨i, h1⟩).endTime) ∧
      (∀ h0 : 0 < slots.length,
        (slots.get ⟨0, h0⟩).startTime = (0 : Int) + 9 * 60) ∧
      (∀ h15 : 15 < slots.length,
        (slots.get ⟨15, h15⟩).endTime = (0 : Int) + 17 * 60)) :=
  ⟨by simp, emptyDay_sixteen_slots { db := [] } "b" 0 rfl (by simp)⟩

lemma updateBooking_getFails (r : RepoState) (id : Nat) (stOpt : Option Int)
    (kOpt : Option ServiceType) (notes : Option String) (now : Int)
    (hgf : r.getFails = true) :
    updateBooking r id stOpt kOpt notes now = (.error .repoFailure, r) := by
  unfold updateBooking getBookingByID
  rw [hgf]
  simp

lemma updateBooking_notFound (r : RepoState) (id : Nat) (stOpt : Option Int)
    (kOpt : Option ServiceType) (notes : Option String) (now : Int)
    (hgf : r.getFails = false)
    (hfind : (r.db.find? fun b => b.id == id) = none) :
    updateBooking r id stOpt kOpt notes now = (.error .notFound, r) := by
  unfold updateBooking getBookingByID
  rw [hgf]
  simp only [Bool.false_eq_true, if_false, hfind]

lemma updateBooking_queryFails_start (r : RepoState) (id : Nat) (st : Int)
    (kOpt : Option ServiceType) (notes : Option String) (now : Int)
    (ex : Booking) (hgf : r.getFails = false) (hqf : r.queryFails = true)
    (hfind : (r.db.find? fun b => b.id == id) = some ex) :
    updateBooking r id (some st) kOpt notes now = (.error .repoFailure, r) := by
  unfold updateBooking getBookingByID getBookingsInTimeRange
  rw [hgf, hqf]
  simp only [Bool.false_eq_true, if_false, if_true, hfind]

lemma updateBooking_queryFails_kind (r : RepoState) (id : Nat)
    (k : ServiceType) (notes : Option String) (now : Int) (ex : Booking)
    (hgf : r.getFails = false) (hqf : r.queryFails = true)
    (hfind : (r.db.find? fun b => b.id == id) = some ex) :
    updateBooking r id none (some k) notes now = (.error .repoFailure, r) := by
  unfold updateBooking getBookingByID getBookingsInTimeRange
  rw [hgf, hqf]
  simp only [Bool.false_eq_true, if_false, if_true, hfind]

lemma updateCommit_error_state (r : RepoState) (id : Nat) (ex : Booking)
    (stOpt : Option Int) (kOpt : Option ServiceType) (notes : Option String)
    (now : Int) (e : ServiceError)
    (h : (updateCommit r id ex stOpt kOpt notes now).1 = .error e) :
    (updateCommit r id ex stOpt kOpt notes now).2 = r := by
  unfold updateCommit repoUpdateBooking at h ⊢
  cases hpf : r.persistFails with
  | true =>
    simp
  | false =>
    simp only [Bool.false_eq_true, if_false] at h ⊢
    cases hfind : r.db.find? fun b => b.id == id with
    | none =>
      simp
    | some b =>
      simp [hpf, hfind] at h

lemma updateBooking_error_snd (r : RepoState) (id : Nat) (stOpt : Option Int)
    (kOpt : Option ServiceType) (notes : Option String) (now : Int)
    (e : ServiceError)
    (h : (updateBooking r id stOpt kOpt notes now).1 = .error e) :
    (updateBooking r id stOpt kOpt notes now).2 = r := by
  cases hgf : r.getFails with
  | true => rw [updateBooking_getFails r id stOpt kOpt notes now hgf]
  | false =>
    cases hfind : r.db.find? fun b => b.id == id with
    | none => rw [updateBooking_notFound r id stOpt kOpt notes now hgf hfind]
    | some ex =>
      rcases stOpt with _ | st
      · rcases kOpt with _ | k
        · rw [updateBooking_found_noTimes r id notes now ex hgf hfind] at h ⊢
          exact updateCommit_error_state r id ex none none notes now e h
        · cases hqf : r.queryFails with
          | true =>
            rw [updateBooking_queryFails_kind r id k notes now ex hgf hqf
              hfind]
          | false =>
            rw [updateBooking_found_kindOnly r id k notes now ex hgf hqf
              hfind] at h ⊢
            by_cases hpos : 0 < (removeSelf (r.db.filter (inTimeRangeFilter
                ex.barberID ex.startTime (calculateEndTime ex.startTime k)))
                ex.id).length
            · rw [if_pos hpos]
            · rw [if_neg hpos] at h ⊢
              exact updateCommit_error_state r id ex none (some k) notes now
                e h
      · cases hqf : r.queryFails with
        | true =>
          rw [updateBooking_queryFails_start r id st kOpt notes now ex hgf
            hqf hfind]
        | false =>
          rw [updateBooking_found_start r id st kOpt notes now ex hgf hqf
            hfind] at h ⊢
          by_cases hpos : 0 < (removeSelf (r.db.filter (inTimeRangeFilter
              ex.barberID st (calculateEndTime st (kOpt.getD
              ex.serviceType)))) ex.id).length
          · rw [if_pos hpos]
          · rw [if_neg hpos] at h ⊢
            exact updateCommit_error_state r id ex (some st) kOpt notes now
              e h

/-- C7: `UpdateBooking` is all-or-nothing with respect to the availability
re-check: every error outcome leaves the store unchanged, and in
particular a failing load, a failing overlap query (with a new start or a
new kind), or a remaining conflict each return an error with the store
untouched, before any field mutation reaches the repository. -/
theorem updateBooking_all_or_nothing (r : RepoState) (id : Nat)
    (stOpt : Option Int) (kOpt : Option ServiceType) (notes : Option String)
    (now : Int) :
    (∀ e : ServiceError,
      (updateBooking r id stOpt kOpt notes now).1 = .error e →
      (updateBooking r id stOpt kOpt notes now).2 = r)
    ∧ (r.getFails = true →
        updateBooking r id stOpt kOpt notes now = (.error .repoFailure, r))
    ∧ (r.getFails = false → (r.db.find? fun b => b.id == id) = none →
        updateBooking r id stOpt kOpt notes now = (.error .notFound, r))
    ∧ (∀ ex st, r.getFails = false →
        (r.db.find? fun b => b.id == id) = some ex → r.queryFails = true →
        stOpt = some st →
        updateBooking r id stOpt kOpt notes now = (.error .repoFailure, r))
    ∧ (∀ ex k, r.getFails = false →
        (r.db.find? fun b => b.id == id) = some ex → r.queryFails = true →
        stOpt = none → kOpt = some k →
        updateBooking r id stOpt kOpt notes now = (.error .repoFailure, r))
    ∧ (∀ ex st, r.getFails = false →
        (r.db.find? fun b => b.id == id) = some ex → r.queryFails = false →
        stOpt = some st →
        0 < (removeSelf (r.db.filter (inTimeRangeFilter ex.barberID st
          (calculateEndTime st (kOpt.getD ex.serviceType)))) ex.id).length →
        updateBooking r id stOpt kOpt notes now = (.error .conflict, r))
    ∧ (∀ ex k, r.getFails = false →
        (r.db.find? fun b => b.id == id) = some ex → r.queryFails = false →
        stOpt = none → kOpt = some k →
        0 < (removeSelf (r.db.filter (inTimeRangeFilter ex.barberID
          ex.startTime (calculateEndTime ex.startTime k))) ex.id).length →
        updateBooking r id stOpt kOpt notes now = (.error .conflict, r)) := by
  refine ⟨fun e h => updateBooking_error_snd r id stOpt kOpt notes now e h,
    fun hgf => updateBooking_getFails r id stOpt kOpt notes now hgf,
    fun hgf hfind => updateBooking_notFound r id stOpt kOpt notes now hgf
      hfind, ?_, ?_, ?_, ?_⟩
  · intro ex st hgf hfind hqf hst
    subst hst
    exact updateBooking_queryFails_start r id st kOpt notes now ex hgf hqf
      hfind
  · intro ex k hgf hfind hqf hst hk
    subst hst
    subst hk
    exact updateBooking_queryFails_kind r id k notes now ex hgf hqf hfind
  · intro ex st hgf hfind hqf hst hpos
    subst hst
    rw [updateBooking_found_start r id st kOpt notes now ex hgf hqf hfind,
      if_pos hpos]
  · intro ex k hgf hfind hqf hst hk hpos
    subst hst
    subst hk
    rw [updateBooking_found_kindOnly r id k notes now ex hgf hqf hfind,
      if_pos hpos]

theorem updateBooking_all_or_nothing_witness :
    ({ wRepo with queryFails := true } : RepoState).getFails = false ∧
    ((({ wRepo with queryFails := true } : RepoState)).db.find?
      (fun b => b.id == 7)) = some wBooking ∧
    updateBooking { wRepo with queryFails := true } 7 (some 100) none none 9 =
      (.error .repoFailure, { wRepo with queryFails := true }) :=
  ⟨rfl, by decide,
   (updateBooking_all_or_nothing { wRepo with queryFails := true } 7
     (some 100) none none 9).2.2.2.1 wBooking 100 rfl (by decide) rfl rfl⟩

lemma updateCommit_ok_inv (r : RepoState) (id : Nat) (ex : Booking)
    (stOpt : Option Int) (kOpt : Option ServiceType) (notes : Option String)
    (now : Int) (b2 : Booking)
    (h : (updateCommit r id ex stOpt kOpt notes now).1 = .ok (some b2)) :
    ∃ b, (r.db.find? fun x => x.id == id) = some b ∧
      b2 = applyUpdates b (buildUpdates ex stOpt kOpt notes) now := by
  unfold updateCommit repoUpdateBooking at h
  cases hpf : r.persistFails with
  | true => simp [hpf] at h
  | false =>
    cases hfind : r.db.find? fun x => x.id == id with
    | none => simp [hpf, hfind] at h
    | some b =>
      simp only [hpf, Bool.false_eq_true, if_false, hfind] at h
      simp only [Except.ok.injEq, Option.some.injEq] at h
      exact ⟨b, rfl, h.symm⟩

lemma updateBooking_ok_inv (r : RepoState) (id : Nat) (stOpt : Option Int)
    (kOpt : Option ServiceType) (notes : Option String) (now : Int)
    (b2 : Booking)
    (h : (updateBooking r id stOpt kOpt notes now).1 = .ok (some b2)) :
    ∃ ex, (r.db.find? fun b => b.id == id) = some ex ∧
      b2 = applyUpdates ex (buildUpdates ex stOpt kOpt notes) now := by
  cases hgf : r.getFails with
  | true =>
    rw [updateBooking_getFails r id stOpt kOpt notes now hgf] at h
    simp at h
  | false =>
    cases hfind : r.db.find? fun b => b.id == id with
    | none =>
      rw [updateBooking_notFound r id stOpt kOpt notes now hgf hfind] at h
      simp at h
    | some ex =>
      have hcommit : ∀ stOpt2 kOpt2,
          (updateCommit r id ex stOpt2 kOpt2 notes now).1 = .ok (some b2) →
          ∃ ex2, (r.db.find? fun b => b.id == id) = some ex2 ∧
            b2 = applyUpdates ex2 (buildUpdates ex stOpt2 kOpt2 notes) now := by
        intro stOpt2 kOpt2 hc
        obtain ⟨b, hb, hb2⟩ :=
          updateCommit_ok_inv r id ex stOpt2 kOpt2 notes now b2 hc
        exact ⟨b, hb, hb2⟩
      rcases stOpt with _ | st
      · rcases kOpt with _ | k
        · rw [updateBooking_found_noTimes r id notes now ex hgf hfind] at h
          obtain ⟨b, hb, hb2⟩ := hcommit none none h
          rw [hfind] at hb
          injection hb with hbe
          rw [← hbe] at hb2
          exact ⟨ex, rfl, hb2⟩
        · cases hqf : r.queryFails with
          | true =>
            rw [updateBooking_queryFails_kind r id k notes now ex hgf hqf
              hfind] at h
            simp at h
          | false =>
            rw [updateBooking_found_kindOnly r id k notes now ex hgf hqf
              hfind] at h
            by_cases hpos : 0 < (removeSelf (r.db.filter (inTimeRangeFilter
                ex.barberID ex.startTime (calculateEndTime ex.startTime k)))
                ex.id).length
            · rw [if_pos hpos] at h
              simp at h
            · rw [if_neg hpos] at h
              obtain ⟨b, hb, hb2⟩ := hcommit none (some k) h
              rw [hfind] at hb
              injection hb with hbe
              rw [← hbe] at hb2
              exact ⟨ex, rfl, hb2⟩
      · cases hqf : r.queryFails with
        | true =>
          rw [updateBooking_queryFails_start r id st kOpt notes now ex hgf
            hqf hfind] at h
          simp at h
        | false =>
          rw [updateBooking_found_start r id st kOpt notes now ex hgf hqf
            hfind] at h
          by_cases hpos : 0 < (removeSelf (r.db.filter (inTimeRangeFilter
              ex.barberID st (calculateEndTime st
              (kOpt.getD ex.serviceType)))) ex.id).length
          · rw [if_pos hpos] at h
            simp at h
          · rw [if_neg hpos] at h
            obtain ⟨b, hb, hb2⟩ := hcommit (some st) kOpt h
            rw [hfind] at hb
            injection hb with hbe
            rw [← hbe] at hb2
            exact ⟨ex, rfl, hb2⟩

lemma createBooking_ok_inv (r : RepoState) (userID barberID : String)
    (st : Int) (k : ServiceType) (notes : String) (now : Int) (b : Booking)
    (h : (createBooking r userID barberID st k notes now).1 = .ok b) :
    b = { id := r.nextID, userID := userID, barberID := barberID,
          startTime := st, endTime := calculateEndTime st k,
          serviceType := k, status := BookingStatusPending, notes := notes,
          createdAt := now, updatedAt := now } := by
  unfold createBooking getBookingsInTimeRange repoCreateBooking at h
  cases hqf : r.queryFails with
  | true => simp [hqf] at h
  | false =>
    simp only [hqf, Bool.false_eq_true, if_false] at h
    by_cases hpos : 0 < (r.db.filter (inTimeRangeFilter barberID st
        (calculateEndTime st k))).length
    · rw [if_pos hpos] at h
      simp at h
    · rw [if_neg hpos] at h
      cases hpf : r.persistFails with
      | true => simp [hpf] at h
      | false =>
        simp only [hpf, Bool.false_eq_true, if_false,
          Except.ok.injEq] at h
        exact h.symm

/-- C8: the duration table is exactly haircut=30, beardTrim=15, hairWash=20,
fullService=60 minutes; every booking returned by a successful Create, and
every booking written by a successful Update that supplied a start or a
kind, satisfies `end = start + duration(effective kind)`. -/
theorem duration_table_exact :
    getDuration ServiceTypeHaircut = 30 ∧
    getDuration ServiceTypeBeardTrim = 15 ∧
    getDuration ServiceTypeHairWash = 20 ∧
    getDuration ServiceTypeFullService = 60 ∧
    (∀ (st : Int) (k : ServiceType),
      calculateEndTime st k = st + getDuration k) ∧
    (∀ (r : RepoState) (userID barberID : String) (st : Int)
      (k : ServiceType) (notes : String) (now : Int) (b : Booking),
      (createBooking r userID barberID st k notes now).1 = .ok b →
      b.serviceType = k ∧ b.startTime = st ∧
      b.endTime = b.startTime + getDuration b.serviceType) ∧
    (∀ (r : RepoState) (id : Nat) (stOpt : Option Int)
      (kOpt : Option ServiceType) (notes : Option String) (now : Int)
      (b2 : Booking), stOpt ≠ none ∨ kOpt ≠ none →
      (updateBooking r id stOpt kOpt notes now).1 = .ok (some b2) →
      b2.endTime = b2.startTime + getDuration b2.serviceType) := by
  refine ⟨by decide, by decide, by decide, by decide, fun st k => rfl,
    ?_, ?_⟩
  · intro r userID barberID st k notes now b h
    have hb := createBooking_ok_inv r userID barberID st k notes now b h
    subst hb
    exact ⟨rfl, rfl, rfl⟩
  · intro r id stOpt kOpt notes now b2 hsome h
    obtain ⟨ex, hfind, hb2⟩ := updateBooking_ok_inv r id stOpt kOpt notes
      now b2 h
    obtain ⟨h1, h2, h3, h4⟩ := buildUpdates_fields ex stOpt kOpt notes
    subst hb2
    rcases stOpt with _ | st
    · rcases kOpt with _ | k
      · exact absurd hsome (by simp)
      · simp [applyUpdates, h1, h2, h4, calculateEndTime]
    · rcases kOpt with _ | k <;>
        simp [applyUpdates, h1, h2, h4, calculateEndTime]

theorem duration_table_exact_witness :
    (createBooking { db := [] } "u" "b" 600 ServiceTypeFullService ""
      7).1 = .ok wCreated ∧
    (wCreated.serviceType = ServiceTypeFullService ∧
      wCreated.startTime = 600 ∧
      wCreated.endTime = wCreated.startTime +
        getDuration wCreated.serviceType) :=
  ⟨rfl, duration_table_exact.2.2.2.2.2.1 { db := [] } "u" "b" 600
    ServiceTypeFullService "" 7 wCreated rfl⟩

/-- C9: the gRPC update handler treats the enum zero value `HAIRCUT` as
"no service kind supplied": the core is called with no kind, a successful
RPC update can only yield a haircut booking if the stored booking already
was a haircut, and a haircut-valued request with no start time neither
recomputes the end nor runs any conflict query — it behaves as a
notes-only update. -/
theorem grpc_haircut_sentinel :
    protoServiceTypeOpt ServiceTypeHaircut = none
    ∧ (∀ (r : RepoState) (req : UpdateBookingRequest) (now : Int),
        serverUpdateBooking r req now =
          updateBooking r req.id req.startTime
            (protoServiceTypeOpt req.serviceType) (some req.notes) now)
    ∧ (∀ (r : RepoState) (req : UpdateBookingRequest) (now : Int)
        (b2 : Booking),
        (serverUpdateBooking r req now).1 = .ok (some b2) →
        b2.serviceType = ServiceTypeHaircut →
        ∃ ex, (r.db.find? fun b => b.id == req.id) = some ex ∧
          ex.serviceType = ServiceTypeHaircut)
    ∧ (∀ (r : RepoState) (req : UpdateBookingRequest) (now : Int)
        (ex : Booking),
        req.serviceType = ServiceTypeHaircut → req.startTime = none →
        r.getFails = false → r.persistFails = false →
        (r.db.find? fun b => b.id == req.id) = some ex →
        (serverUpdateBooking r req now).1 =
          .ok (some { ex with notes := req.notes, updatedAt := now })) := by
  refine ⟨rfl, fun r req now => rfl, ?_, ?_⟩
  · intro r req now b2 h hk
    unfold serverUpdateBooking at h
    obtain ⟨ex, hfind, hb2⟩ := updateBooking_ok_inv r req.id req.startTime
      (protoServiceTypeOpt req.serviceType) (some req.notes) now b2 h
    obtain ⟨h1, h2, h3, h4⟩ := buildUpdates_fields ex req.startTime
      (protoServiceTypeOpt req.serviceType) (some req.notes)
    subst hb2
    by_cases hz : req.serviceType = ServiceTypeHaircut
    · refine ⟨ex, hfind, ?_⟩
      have hnone : protoServiceTypeOpt req.serviceType = none := by
        unfold protoServiceTypeOpt
        simp [hz]
      rw [show (applyUpdates ex (buildUpdates ex req.startTime
        (protoServiceTypeOpt req.serviceType) (some req.notes))
        now).serviceType = (buildUpdates ex req.startTime
        (protoServiceTypeOpt req.serviceType)
        (some req.notes)).serviceType.getD ex.serviceType from rfl,
        h2, hnone] at hk
      exact hk
    · exfalso
      have hsomek : protoServiceTypeOpt req.serviceType =
          some req.serviceType := by
        unfold protoServiceTypeOpt
        simp [hz]
      rw [show (applyUpdates ex (buildUpdates ex req.startTime
        (protoServiceTypeOpt req.serviceType) (some req.notes))
        now).serviceType = (buildUpdates ex req.startTime
        (protoServiceTypeOpt req.serviceType)
        (some req.notes)).serviceType.getD ex.serviceType from rfl,
        h2, hsomek] at hk
      exact hz hk
  · intro r req now ex hk hst hgf hpf hfind
    have hnone : protoServiceTypeOpt req.serviceType = none := by
      unfold protoServiceTypeOpt
      simp [hk]
    unfold serverUpdateBooking
    rw [hst, hnone,
      updateBooking_found_noTimes r req.id (some req.notes) now ex hgf hfind,
      updateCommit_ok r req.id ex none none (some req.notes) now hpf hfind]
    rfl

theorem grpc_haircut_sentinel_witness :
    (({ id := 7, notes := "n2" } : UpdateBookingRequest).serviceType =
      ServiceTypeHaircut) ∧
    (serverUpdateBooking wRepo { id := 7, notes := "n2" } 9).1 =
      .ok (some { wBooking with notes := "n2", updatedAt := 9 }) :=
  ⟨rfl, grpc_haircut_sentinel.2.2.2 wRepo { id := 7, notes := "n2" } 9
    wBooking rfl rfl rfl rfl (by decide)⟩

/-- C10: the gRPC update handler always passes a non-nil pointer to the
request's notes string, so a successful RPC update always overwrites the
stored notes with the request's notes — a request that omits notes (proto3
empty string) resets the stored notes to the empty string. -/
theorem grpc_notes_always_overwritten :
    (∀ (r : RepoState) (req : UpdateBookingRequest) (now : Int),
      serverUpdateBooking r req now =
        updateBooking r req.id req.startTime
          (protoServiceTypeOpt req.serviceType) (some req.notes) now)
    ∧ (∀ (r : RepoState) (req : UpdateBookingRequest) (now : Int)
        (b2 : Booking),
        (serverUpdateBooking r req now).1 = .ok (some b2) →
        b2.notes = req.notes)
    ∧ (∀ (r : RepoState) (req : UpdateBookingRequest) (now : Int)
        (b2 : Booking), req.notes = "" →
        (serverUpdateBooking r req now).1 = .ok (some b2) →
        b2.notes = "") := by
  have hmain : ∀ (r : RepoState) (req : UpdateBookingRequest) (now : Int)
      (b2 : Booking), (serverUpdateBooking r req now).1 = .ok (some b2) →
      b2.notes = req.notes := by
    intro r req now b2 h
    unfold serverUpdateBooking at h
    obtain ⟨ex, hfind, hb2⟩ := updateBooking_ok_inv r req.id req.startTime
      (protoServiceTypeOpt req.serviceType) (some req.notes) now b2 h
    obtain ⟨h1, h2, h3, h4⟩ := buildUpdates_fields ex req.startTime
      (protoServiceTypeOpt req.serviceType) (some req.notes)
    subst hb2
    rw [show (applyUpdates ex (buildUpdates ex req.startTime
      (protoServiceTypeOpt req.serviceType) (some req.notes))
      now).notes = (buildUpdates ex req.startTime
      (protoServiceTypeOpt req.serviceType)
      (some req.notes)).notes.getD ex.notes from rfl, h3]
    rfl
  exact ⟨fun r req now => rfl, hmain,
    fun r req now b2 hempty h => hempty ▸ hmain r req now b2 h⟩

theorem grpc_notes_always_overwritten_witness :
    (serverUpdateBooking wRepoNoted { id := 8 } 9).1 =
      .ok (some { wNoted with notes := "", updatedAt := 9 }) ∧
    ({ wNoted with notes := "", updatedAt := 9 } : Booking).notes = "" :=
  ⟨rfl, grpc_notes_always_overwritten.2.1 wRepoNoted { id := 8 } 9
    { wNoted with notes := "", updatedAt := 9 } rfl⟩
